import Mathlib

/-!
Shallow embedding of the Markdown-to-HTML converter in markdown2html.py.

The transformation core is the function parse_markdown: it splits the
document into lines, strips each line, applies the inline style
substitutions (double-asterisk to a bold tag, double-underscore to an
emphasis tag, both non-greedy, mirroring re.sub with a lazy pattern),
classifies the line by its first character, and maintains three pieces
of state: the open-unordered-list flag, the open-ordered-list flag and
the paragraph accumulator.  Machine strings are modelled as Lean
strings; line-level work is done on the underlying character lists.
-/

/-- Python str.strip() whitespace predicate, restricted to the characters
Python treats as whitespace (ASCII whitespace, the C1 whitespace
characters and the Unicode space separators). -/
def pyIsSpace (c : Char) : Bool :=
  c == ' ' || c == '\t' || c == '\n' || c == '\r' || c == '\x0b' || c == '\x0c' ||
  c == '\x1c' || c == '\x1d' || c == '\x1e' || c == '\x1f' || c == '\x85' ||
  c == '\xa0' || c == ' ' || (0x2000 ≤ c.toNat && c.toNat ≤ 0x200a) ||
  c == ' ' || c == ' ' || c == ' ' || c == ' ' || c == '　'

/-- Python line.strip(): drop whitespace from both ends. -/
def pyStripL (l : List Char) : List Char :=
  ((l.dropWhile pyIsSpace).reverse.dropWhile pyIsSpace).reverse

/-- Characters that Python str.splitlines() treats as line boundaries. -/
def isLineBreak (c : Char) : Bool :=
  c == '\n' || c == '\r' || c == '\x0b' || c == '\x0c' || c == '\x1c' ||
  c == '\x1d' || c == '\x1e' || c == '\x85' || c == ' ' || c == ' '

/-- Worker for Python str.splitlines(): acc holds the reversed current line. -/
def splitLinesAux : List Char → List Char → List (List Char)
  | acc, [] => [acc.reverse]
  | acc, '\r' :: '\n' :: [] => [acc.reverse]
  | acc, '\r' :: '\n' :: c :: rest => acc.reverse :: splitLinesAux [] (c :: rest)
  | acc, c :: [] => if isLineBreak c then [acc.reverse] else [(c :: acc).reverse]
  | acc, c :: d :: rest =>
    if isLineBreak c then acc.reverse :: splitLinesAux [] (d :: rest)
    else splitLinesAux (c :: acc) (d :: rest)

/-- Python md_content.splitlines(): empty string gives no lines; a trailing
line terminator does not create a final empty line. -/
def pySplitlines (s : String) : List String :=
  match s.toList with
  | [] => []
  | c :: rest => (splitLinesAux [] (c :: rest)).map String.mk

/-- Locate the leftmost occurrence of the two-character delimiter a a:
returns the characters before it and the characters after it. -/
def find2 (a : Char) : List Char → Option (List Char × List Char)
  | [] => none
  | [_] => none
  | c :: d :: rest =>
    if c == a && d == a then some ([], rest)
    else
      match find2 a (d :: rest) with
      | some (p, r) => some (c :: p, r)
      | none => none

/-- Fuelled worker for the non-greedy delimiter substitution performed by
re.sub with a lazy pattern: find the leftmost opening delimiter, the
nearest closing delimiter after it, wrap the text between them in the
open and close tags, and continue after the closing delimiter.  If either
delimiter is missing the remaining text is left unchanged. -/
def sub2F (a : Char) (opTag clTag : List Char) : Nat → List Char → List Char
  | 0, s => s
  | Nat.succ fuel, s =>
    match find2 a s with
    | none => s
    | some (p, r) =>
      match find2 a r with
      | none => s
      | some (t, r2) => p ++ opTag ++ t ++ clTag ++ sub2F a opTag clTag fuel r2

/-- Non-greedy substitution of a doubled delimiter by a tag pair; the fuel
s.length is always sufficient since every rewrite consumes four delimiter
characters. -/
def sub2 (a : Char) (opTag clTag : List Char) (s : List Char) : List Char :=
  sub2F a opTag clTag s.length s

/-- Character-list version of apply_text_styles: first the double-asterisk
pass producing bold tags, then the double-underscore pass producing
emphasis tags, exactly as the two re.sub calls. -/
def atsL (l : List Char) : List Char :=
  sub2 '_' ("<em>".toList) ("</em>".toList) (sub2 '*' ("<b>".toList) ("</b>".toList) l)

/-- apply_text_styles from the source: bold then emphasis substitution. -/
def apply_text_styles (s : String) : String :=
  String.mk (atsL s.toList)

/-- The per-line normalisation the loop performs before classification:
line = line.strip() followed by line = apply_text_styles(line). -/
def normL (raw : List Char) : List Char :=
  atsL (pyStripL raw)

/-- Python line.startswith(c) for a single-character argument. -/
def startsCh (l : List Char) (c : Char) : Bool :=
  match l with
  | [] => false
  | d :: _ => d == c

/-- Python line.split(' '): split on every single space, keeping empty
fields; the result is never empty. -/
def pySplitSpace : List Char → List (List Char)
  | [] => [[]]
  | c :: rest =>
    match pySplitSpace rest with
    | [] => [[]]
    | t :: ts => if c == ' ' then [] :: t :: ts else (c :: t) :: ts

/-- Parser state of parse_markdown: the output lines accumulated so far,
the two open-list flags and the pending paragraph lines. -/
structure PState where
  html_lines : List String
  in_unordered_list : Bool
  in_ordered_list : Bool
  paragraph_lines : List String
deriving Repr, DecidableEq

/-- Initial state of the loop in parse_markdown. -/
def initState : PState :=
  { html_lines := [], in_unordered_list := false, in_ordered_list := false,
    paragraph_lines := [] }

/-- close_paragraph from the source: if paragraph lines are pending, emit
a p open tag, the pending lines joined by the br marker, and a p close
tag, then clear the accumulator. -/
def close_paragraph (st : PState) : PState :=
  if st.paragraph_lines.isEmpty then st
  else
    { st with
      html_lines := st.html_lines ++
        ["<p>", String.intercalate "<br/>" st.paragraph_lines, "</p>"],
      paragraph_lines := [] }

/-- The heading HTML line built at lines 71 to 73 of the source: the level
is the length of the first space-delimited token, the text is the rest of
the line stripped. -/
def headingHtml (line : List Char) : String :=
  let heading_level := ((pySplitSpace line).headD []).length
  let heading_text := pyStripL (line.drop heading_level)
  "<h" ++ toString heading_level ++ ">" ++ String.mk heading_text ++
    "</h" ++ toString heading_level ++ ">"

/-- The heading branch of the loop: close the paragraph, close both list
kinds if open, then emit the heading line. -/
def headingBranch (st : PState) (line : List Char) : PState :=
  let st1 := close_paragraph st
  let st2 :=
    if st1.in_unordered_list then
      { st1 with html_lines := st1.html_lines ++ ["</ul>"], in_unordered_list := false }
    else st1
  let st3 :=
    if st2.in_ordered_list then
      { st2 with html_lines := st2.html_lines ++ ["</ol>"], in_ordered_list := false }
    else st2
  { st3 with html_lines := st3.html_lines ++ [headingHtml line] }

/-- The list item HTML line: the line after its first character, stripped. -/
def listItemHtml (line : List Char) : String :=
  "<li>" ++ String.mk (pyStripL (line.drop 1)) ++ "</li>"

/-- The unordered list branch: close the paragraph, open the unordered
list if it is not already open (the ordered-list flag is not consulted),
then emit the item. -/
def ulBranch (st : PState) (line : List Char) : PState :=
  let st1 := close_paragraph st
  let st2 :=
    if st1.in_unordered_list then st1
    else { st1 with html_lines := st1.html_lines ++ ["<ul>"], in_unordered_list := true }
  { st2 with html_lines := st2.html_lines ++ [listItemHtml line] }

/-- The ordered list branch, symmetric to the unordered one. -/
def olBranch (st : PState) (line : List Char) : PState :=
  let st1 := close_paragraph st
  let st2 :=
    if st1.in_ordered_list then st1
    else { st1 with html_lines := st1.html_lines ++ ["<ol>"], in_ordered_list := true }
  { st2 with html_lines := st2.html_lines ++ [listItemHtml line] }

/-- The fallthrough branch: close both list kinds if open; a non-empty
line joins the paragraph accumulator, an empty line flushes it. -/
def otherBranch (st : PState) (line : List Char) : PState :=
  let st1 :=
    if st.in_unordered_list then
      { st with html_lines := st.html_lines ++ ["</ul>"], in_unordered_list := false }
    else st
  let st2 :=
    if st1.in_ordered_list then
      { st1 with html_lines := st1.html_lines ++ ["</ol>"], in_ordered_list := false }
    else st1
  if line.isEmpty then close_paragraph st2
  else { st2 with paragraph_lines := st2.paragraph_lines ++ [String.mk line] }

/-- One iteration of the loop in parse_markdown: strip and style the raw
line, then dispatch on its first character. -/
def processLine (st : PState) (raw : String) : PState :=
  let line := normL raw.toList
  if startsCh line '#' then headingBranch st line
  else if startsCh line '-' then ulBranch st line
  else if startsCh line '*' then olBranch st line
  else otherBranch st line

/-- The epilogue of parse_markdown: close the pending paragraph, then a
still-open unordered list, then a still-open ordered list. -/
def finishState (st : PState) : PState :=
  let st1 := close_paragraph st
  let st2 :=
    if st1.in_unordered_list then { st1 with html_lines := st1.html_lines ++ ["</ul>"] }
    else st1
  if st2.in_ordered_list then { st2 with html_lines := st2.html_lines ++ ["</ol>"] }
  else st2

/-- parse_markdown on an already split document. -/
def parse_document_lines (lines : List String) : String :=
  String.intercalate "\n" (finishState (lines.foldl processLine initState)).html_lines

/-- The loop state reached by parse_markdown just before the epilogue. -/
def parse_state (s : String) : PState :=
  (pySplitlines s).foldl processLine initState

/-- parse_markdown from the source: split the document into lines, run
the loop, close what is still open, and join the emitted lines. -/
def parse_markdown (md_content : String) : String :=
  parse_document_lines (pySplitlines md_content)

/-!
Instrumented emission trace.  The parser appends two kinds of output
lines: structural tags written as literal strings in the source, and
content lines carrying document text.  The instrumented parser below is
the same state machine, but each appended line is labelled; erasing the
labels recovers html_lines exactly (proved below).  The structural
balance of list tags is a statement about this trace.
-/

/-- One emitted output line, labelled by whether the source appended it
as a literal structural tag or built it from document content. -/
inductive Emit where
  | tag : String → Emit
  | text : String → Emit
deriving Repr, DecidableEq

/-- Erase the label of an emitted line. -/
def renderE : Emit → String
  | Emit.tag s => s
  | Emit.text s => s

/-- Instrumented parser state: identical to PState except that the
emitted lines are labelled. -/
structure EState where
  items : List Emit
  in_unordered_list : Bool
  in_ordered_list : Bool
  paragraph_lines : List String
deriving Repr, DecidableEq

/-- Initial instrumented state. -/
def initStateE : EState :=
  { items := [], in_unordered_list := false, in_ordered_list := false,
    paragraph_lines := [] }

/-- Label-erasing projection from the instrumented state. -/
def toPlain (st : EState) : PState :=
  { html_lines := st.items.map renderE,
    in_unordered_list := st.in_unordered_list,
    in_ordered_list := st.in_ordered_list,
    paragraph_lines := st.paragraph_lines }

/-- Instrumented close_paragraph. -/
def close_paragraphE (st : EState) : EState :=
  if st.paragraph_lines.isEmpty then st
  else
    { st with
      items := st.items ++
        [Emit.tag "<p>", Emit.text (String.intercalate "<br/>" st.paragraph_lines),
         Emit.tag "</p>"],
      paragraph_lines := [] }

/-- Instrumented heading branch. -/
def headingBranchE (st : EState) (line : List Char) : EState :=
  let st1 := close_paragraphE st
  let st2 :=
    if st1.in_unordered_list then
      { st1 with items := st1.items ++ [Emit.tag "</ul>"], in_unordered_list := false }
    else st1
  let st3 :=
    if st2.in_ordered_list then
      { st2 with items := st2.items ++ [Emit.tag "</ol>"], in_ordered_list := false }
    else st2
  { st3 with items := st3.items ++ [Emit.text (headingHtml line)] }

/-- Instrumented unordered list branch. -/
def ulBranchE (st : EState) (line : List Char) : EState :=
  let st1 := close_paragraphE st
  let st2 :=
    if st1.in_unordered_list then st1
    else { st1 with items := st1.items ++ [Emit.tag "<ul>"], in_unordered_list := true }
  { st2 with items := st2.items ++ [Emit.text (listItemHtml line)] }

/-- Instrumented ordered list branch. -/
def olBranchE (st : EState) (line : List Char) : EState :=
  let st1 := close_paragraphE st
  let st2 :=
    if st1.in_ordered_list then st1
    else { st1 with items := st1.items ++ [Emit.tag "<ol>"], in_ordered_list := true }
  { st2 with items := st2.items ++ [Emit.text (listItemHtml line)] }

/-- Instrumented fallthrough branch. -/
def otherBranchE (st : EState) (line : List Char) : EState :=
  let st1 :=
    if st.in_unordered_list then
      { st with items := st.items ++ [Emit.tag "</ul>"], in_unordered_list := false }
    else st
  let st2 :=
    if st1.in_ordered_list then
      { st1 with items := st1.items ++ [Emit.tag "</ol>"], in_ordered_list := false }
    else st1
  if line.isEmpty then close_paragraphE st2
  else { st2 with paragraph_lines := st2.paragraph_lines ++ [String.mk line] }

/-- Instrumented per-line step. -/
def processLineE (st : EState) (raw : String) : EState :=
  let line := normL raw.toList
  if startsCh line '#' then headingBranchE st line
  else if startsCh line '-' then ulBranchE st line
  else if startsCh line '*' then olBranchE st line
  else otherBranchE st line

/-- Instrumented epilogue. -/
def finishStateE (st : EState) : EState :=
  let st1 := close_paragraphE st
  let st2 :=
    if st1.in_unordered_list then { st1 with items := st1.items ++ [Emit.tag "</ul>"] }
    else st1
  if st2.in_ordered_list then { st2 with items := st2.items ++ [Emit.tag "</ol>"] }
  else st2

/-- The labelled emission trace of a whole document. -/
def emitTrace (s : String) : List Emit :=
  (finishStateE ((pySplitlines s).foldl processLineE initStateE)).items

/-- Number of occurrences of one labelled line in a trace. -/
def countEmit (e : Emit) (l : List Emit) : Nat :=
  l.countP (fun x => x == e)

/-!
Checked variant of the parser.  The only operation in parse_markdown
that could raise at runtime is the list indexing line.split(' ')[0] in
the heading branch; the checked variant models it with Option and fails
where the Python expression would raise IndexError.  Everything else in
the loop is total.  The agreement theorem below shows the checked parser
never fails and agrees with the total embedding.
-/

/-- Heading branch with the indexing of line.split(' ')[0] made explicit:
none models an IndexError. -/
def headingBranchChk (st : PState) (line : List Char) : Option PState :=
  match (pySplitSpace line).head? with
  | none => none
  | some tok =>
    let st1 := close_paragraph st
    let st2 :=
      if st1.in_unordered_list then
        { st1 with html_lines := st1.html_lines ++ ["</ul>"], in_unordered_list := false }
      else st1
    let st3 :=
      if st2.in_ordered_list then
        { st2 with html_lines := st2.html_lines ++ ["</ol>"], in_ordered_list := false }
      else st2
    let heading_level := tok.length
    let heading_text := pyStripL (line.drop heading_level)
    some { st3 with
      html_lines := st3.html_lines ++
        ["<h" ++ toString heading_level ++ ">" ++ String.mk heading_text ++
          "</h" ++ toString heading_level ++ ">"] }

/-- Per-line step of the checked parser. -/
def processLineChk (st : PState) (raw : String) : Option PState :=
  let line := normL raw.toList
  if startsCh line '#' then headingBranchChk st line
  else if startsCh line '-' then some (ulBranch st line)
  else if startsCh line '*' then some (olBranch st line)
  else some (otherBranch st line)

/-- Checked parse_markdown: propagates a potential runtime failure of the
loop body. -/
def parse_markdown_chk (md_content : String) : Option String :=
  ((pySplitlines md_content).foldlM processLineChk initState).map
    (fun st => String.intercalate "\n" (finishState st).html_lines)

/-!
Auxiliary notions used to state the claims.
-/

/-- Number of positions of l at which pat occurs as a contiguous block. -/
def countOcc (pat : List Char) (l : List Char) : Nat :=
  (List.range (l.length + 1)).countP (fun i => pat.isPrefixOf (l.drop i))

/-- Number of occurrences of a pattern in a string. -/
def countOccS (pat s : String) : Nat :=
  countOcc pat.toList s.toList

/-- A plain line: after stripping and styling it is non-empty and starts
with none of the three marker characters. -/
def plainLine (raw : String) : Bool :=
  !(normL raw.toList).isEmpty &&
    !startsCh (normL raw.toList) '#' &&
    !startsCh (normL raw.toList) '-' &&
    !startsCh (normL raw.toList) '*'

/-- The number of leading hash characters of a line. -/
def leadingHashes (l : List Char) : Nat :=
  (l.takeWhile (fun c => c == '#')).length

/-- The first space-delimited token of a line, as the spec describes it. -/
def firstTok (l : List Char) : List Char :=
  l.takeWhile (fun c => !(c == ' '))

/-- Holds when the string cannot be split around two disjoint occurrences
of the doubled delimiter a a, i.e. the lazy delimiter pattern has no
match anywhere in the string. -/
def noDelimMatch (a : Char) (s : List Char) : Prop :=
  ¬ ∃ p c r, s = p ++ [a, a] ++ c ++ [a, a] ++ r

/-- Structural balance of the unordered-list tags in an instrumented
state: the opening tags emitted so far exceed the closing ones exactly
by the open flag. -/
def ulBalanced (st : EState) : Prop :=
  countEmit (Emit.tag "<ul>") st.items =
    countEmit (Emit.tag "</ul>") st.items + (if st.in_unordered_list then 1 else 0)

/-- Structural balance of the ordered-list tags, symmetric to ulBalanced. -/
def olBalanced (st : EState) : Prop :=
  countEmit (Emit.tag "<ol>") st.items =
    countEmit (Emit.tag "</ol>") st.items + (if st.in_ordered_list then 1 else 0)

theorem startsCh_excl {l : List Char} {c d : Char} (h : startsCh l c = true)
    (hcd : c ≠ d) : startsCh l d = false := by
  cases l with
  | nil => simp [startsCh] at h
  | cons e l =>
    simp [startsCh] at h ⊢
    exact fun he => hcd (h.symm.trans he)

theorem processLine_heading_eq (st : PState) (raw : String)
    (h : startsCh (normL raw.toList) '#' = true) :
    processLine st raw = headingBranch st (normL raw.toList) := by
  have h2 : startsCh (normL raw.data) '#' = true := h
  simp [processLine, h2]

theorem processLine_ul_eq (st : PState) (raw : String)
    (h : startsCh (normL raw.toList) '-' = true) :
    processLine st raw = ulBranch st (normL raw.toList) := by
  have h1 : startsCh (normL raw.data) '#' = false := startsCh_excl h (by decide)
  have h2 : startsCh (normL raw.data) '-' = true := h
  simp [processLine, h1, h2]

theorem processLine_ol_eq (st : PState) (raw : String)
    (h : startsCh (normL raw.toList) '*' = true) :
    processLine st raw = olBranch st (normL raw.toList) := by
  have h1 : startsCh (normL raw.data) '#' = false := startsCh_excl h (by decide)
  have h2 : startsCh (normL raw.data) '-' = false := startsCh_excl h (by decide)
  have h3 : startsCh (normL raw.data) '*' = true := h
  simp [processLine, h1, h2, h3]

theorem processLine_other_eq (st : PState) (raw : String)
    (h1 : startsCh (normL raw.toList) '#' = false)
    (h2 : startsCh (normL raw.toList) '-' = false)
    (h3 : startsCh (normL raw.toList) '*' = false) :
    processLine st raw = otherBranch st (normL raw.toList) := by
  have g1 : startsCh (normL raw.data) '#' = false := h1
  have g2 : startsCh (normL raw.data) '-' = false := h2
  have g3 : startsCh (normL raw.data) '*' = false := h3
  simp [processLine, g1, g2, g3]

theorem close_paragraph_ul (st : PState) :
    (close_paragraph st).in_unordered_list = st.in_unordered_list := by
  simp only [close_paragraph]
  split <;> rfl

theorem close_paragraph_ol (st : PState) :
    (close_paragraph st).in_ordered_list = st.in_ordered_list := by
  simp only [close_paragraph]
  split <;> rfl

theorem pySplitSpace_ne_nil (l : List Char) : pySplitSpace l ≠ [] := by
  cases l with
  | nil => simp [pySplitSpace]
  | cons c rest =>
    cases h : pySplitSpace rest with
    | nil => simp [pySplitSpace, h]
    | cons t ts =>
      simp only [pySplitSpace, h]
      split <;> simp

theorem headD_pySplitSpace (l : List Char) :
    (pySplitSpace l).headD [] = firstTok l := by
  induction l with
  | nil => rfl
  | cons c rest ih =>
    cases h : pySplitSpace rest with
    | nil => exact absurd h (pySplitSpace_ne_nil rest)
    | cons t ts =>
      rw [h] at ih
      simp only [List.headD_cons] at ih
      by_cases hc : c = ' '
      · simp [pySplitSpace, h, hc, firstTok, List.takeWhile_cons]
      · simp [pySplitSpace, h, hc, firstTok, List.takeWhile_cons]
        rw [firstTok] at ih
        exact ih

theorem takeWhile_hash_of_allHash {l : List Char}
    (h : (firstTok l).all (fun c => c == '#') = true) :
    l.takeWhile (fun c => c == '#') = firstTok l := by
  induction l with
  | nil => rfl
  | cons c rest ih =>
    by_cases hc : c = ' '
    · have h1 : firstTok (c :: rest) = [] := by
        simp [firstTok, List.takeWhile_cons, hc]
      rw [h1]
      have h2 : c = ' ' := hc
      simp [List.takeWhile_cons, h2]
    · have h1 : firstTok (c :: rest) = c :: firstTok rest := by
        simp [firstTok, List.takeWhile_cons, hc]
      rw [h1] at h ⊢
      simp only [List.all_cons, Bool.and_eq_true] at h
      obtain ⟨hhash, hrest⟩ := h
      have hch : c = '#' := by
        have := hhash
        exact eq_of_beq this
      simp [List.takeWhile_cons, hch, ih hrest]

theorem head?_pySplitSpace (l : List Char) :
    (pySplitSpace l).head? = some (firstTok l) := by
  have h := headD_pySplitSpace l
  cases hs : pySplitSpace l with
  | nil => exact absurd hs (pySplitSpace_ne_nil l)
  | cons t ts =>
    rw [hs] at h
    simp only [List.headD_cons] at h
    simp [h]

theorem find2_pair (a : Char) (r : List Char) :
    find2 a (a :: a :: r) = some ([], r) := by
  simp [find2]

theorem find2_cons_ne {a c : Char} (hc : ¬ c = a) (l : List Char) :
    find2 a (c :: l) = (find2 a l).map (fun pr => (c :: pr.1, pr.2)) := by
  cases l with
  | nil => rfl
  | cons d rest =>
    have h1 : (c == a && d == a) = false := by
      simp [hc]
    simp only [find2, h1]
    cases h : find2 a (d :: rest) with
    | none => simp
    | some pr => cases pr with | mk p r => simp

theorem find2_none_of_not_mem {a : Char} {l : List Char} (h : a ∉ l) :
    find2 a l = none := by
  induction l with
  | nil => rfl
  | cons c rest ih =>
    have hc : ¬ c = a := fun hca => h (hca ▸ List.mem_cons_self c rest)
    have hrest : a ∉ rest := fun hm => h (List.mem_cons_of_mem c hm)
    rw [find2_cons_ne hc, ih hrest]
    rfl

theorem find2_append_left {a : Char} {x : List Char} (hx : a ∉ x) (y : List Char) :
    find2 a (x ++ y) = (find2 a y).map (fun pr => (x ++ pr.1, pr.2)) := by
  induction x with
  | nil =>
    cases h : find2 a y with
    | none => simp [h]
    | some pr => cases pr with | mk p r => simp [h]
  | cons c x ih =>
    have hc : ¬ c = a := fun hca => hx (hca ▸ List.mem_cons_self c x)
    have hx2 : a ∉ x := fun hm => hx (List.mem_cons_of_mem c hm)
    rw [List.cons_append, find2_cons_ne hc, ih hx2]
    cases h : find2 a y with
    | none => simp
    | some pr => cases pr with | mk p r => simp

theorem find2_sound {a : Char} {s p r : List Char}
    (h : find2 a s = some (p, r)) : s = p ++ [a, a] ++ r := by
  induction s generalizing p r with
  | nil => simp [find2] at h
  | cons c rest ih =>
    cases rest with
    | nil => simp [find2] at h
    | cons d rest2 =>
      by_cases hpair : c = a ∧ d = a
      · obtain ⟨hc, hd⟩ := hpair
        subst hc; subst hd
        rw [find2_pair] at h
        cases h
        simp
      · have h1 : (c == a && d == a) = false := by
          cases hca : c == a
          · simp
          · cases hda : d == a
            · simp
            · exact absurd ⟨eq_of_beq hca, eq_of_beq hda⟩ hpair
        simp only [find2, h1] at h
        cases h2 : find2 a (d :: rest2) with
        | none => rw [h2] at h; simp at h
        | some pr =>
          cases pr with
          | mk p2 r2 =>
            rw [h2] at h
            simp at h
            obtain ⟨hp, hr⟩ := h
            have := ih h2
            subst hp; subst hr
            rw [this]
            simp

theorem find2_length {a : Char} {s p r : List Char}
    (h : find2 a s = some (p, r)) : r.length + 2 ≤ s.length := by
  have := find2_sound h
  subst this
  simp

theorem sub2F_congr (a : Char) (o c : List Char) :
    ∀ f g s, s.length ≤ f → s.length ≤ g → sub2F a o c f s = sub2F a o c g s := by
  intro f
  induction f with
  | zero =>
    intro g s hf hg
    have : s = [] := List.length_eq_zero.mp (Nat.le_zero.mp hf)
    subst this
    cases g with
    | zero => rfl
    | succ g => simp [sub2F, find2]
  | succ f ih =>
    intro g s hf hg
    cases g with
    | zero =>
      have : s = [] := List.length_eq_zero.mp (Nat.le_zero.mp hg)
      subst this
      simp [sub2F, find2]
    | succ g =>
      cases h1 : find2 a s with
      | none => simp [sub2F, h1]
      | some pr1 =>
        obtain ⟨p, r⟩ := pr1
        cases h2 : find2 a r with
        | none => simp [sub2F, h1, h2]
        | some pr2 =>
          obtain ⟨t, r2⟩ := pr2
          simp only [sub2F, h1, h2]
          have hb1 := find2_length h1
          have hb2 := find2_length h2
          have hr2f : r2.length ≤ f := by omega
          have hr2g : r2.length ≤ g := by omega
          rw [ih g r2 hr2f hr2g]

theorem sub2_eq_none {a : Char} (o c : List Char) {s : List Char}
    (h : find2 a s = none) : sub2 a o c s = s := by
  rw [sub2]
  cases hl : s.length with
  | zero => rfl
  | succ n => simp [sub2F, h]

theorem sub2_eq_some_none {a : Char} (o c : List Char) {s p r : List Char}
    (h1 : find2 a s = some (p, r)) (h2 : find2 a r = none) :
    sub2 a o c s = s := by
  rw [sub2]
  cases hl : s.length with
  | zero =>
    have : s = [] := List.length_eq_zero.mp hl
    subst this
    rfl
  | succ n => simp [sub2F, h1, h2]

theorem sub2_eq_some_some {a : Char} (o c : List Char) {s p r t r2 : List Char}
    (h1 : find2 a s = some (p, r)) (h2 : find2 a r = some (t, r2)) :
    sub2 a o c s = p ++ o ++ t ++ c ++ sub2 a o c r2 := by
  rw [sub2]
  cases hl : s.length with
  | zero =>
    have : s = [] := List.length_eq_zero.mp hl
    subst this
    simp [find2] at h1
  | succ n =>
    simp only [sub2F, h1, h2]
    have hb1 := find2_length h1
    have hb2 := find2_length h2
    rw [hl] at hb1
    have hr2n : r2.length ≤ n := by omega
    rw [sub2, sub2F_congr a o c n r2.length r2 hr2n (Nat.le_refl _)]

theorem sub2_nomatch {a : Char} (o c : List Char) {s : List Char}
    (h : noDelimMatch a s) : sub2 a o c s = s := by
  cases h1 : find2 a s with
  | none => exact sub2_eq_none o c h1
  | some pr1 =>
    obtain ⟨p, r⟩ := pr1
    cases h2 : find2 a r with
    | none => exact sub2_eq_some_none o c h1 h2
    | some pr2 =>
      obtain ⟨t, r2⟩ := pr2
      exfalso
      apply h
      refine ⟨p, t, r2, ?_⟩
      have e1 := find2_sound h1
      have e2 := find2_sound h2
      rw [e1, e2]
      simp

theorem sub2_append_left {a : Char} (o c : List Char) {x : List Char}
    (hx : a ∉ x) (y : List Char) :
    sub2 a o c (x ++ y) = x ++ sub2 a o c y := by
  cases h1 : find2 a y with
  | none =>
    have hxy : find2 a (x ++ y) = none := by
      rw [find2_append_left hx y, h1]
      rfl
    rw [sub2_eq_none o c hxy, sub2_eq_none o c h1]
  | some pr1 =>
    obtain ⟨p, r⟩ := pr1
    have hxy : find2 a (x ++ y) = some (x ++ p, r) := by
      rw [find2_append_left hx y, h1]
      rfl
    cases h2 : find2 a r with
    | none =>
      rw [sub2_eq_some_none o c hxy h2, sub2_eq_some_none o c h1 h2]
    | some pr2 =>
      obtain ⟨t, r2⟩ := pr2
      rw [sub2_eq_some_some o c hxy h2, sub2_eq_some_some o c h1 h2]
      simp

theorem sub2_wrap {a : Char} (o c : List Char) {p t : List Char}
    (hp : a ∉ p) (ht : a ∉ t) (r : List Char) :
    sub2 a o c (p ++ [a, a] ++ t ++ [a, a] ++ r) =
      p ++ o ++ t ++ c ++ sub2 a o c r := by
  have e1 : find2 a (p ++ [a, a] ++ t ++ [a, a] ++ r) = some (p, t ++ [a, a] ++ r) := by
    have hsh : p ++ [a, a] ++ t ++ [a, a] ++ r = p ++ ([a, a] ++ t ++ [a, a] ++ r) := by
      simp
    rw [hsh, find2_append_left hp ([a, a] ++ t ++ [a, a] ++ r)]
    have hpair : [a, a] ++ t ++ [a, a] ++ r = a :: a :: (t ++ [a, a] ++ r) := by simp
    rw [hpair, find2_pair]
    simp
  have e2 : find2 a (t ++ [a, a] ++ r) = some (t, r) := by
    have hsh : t ++ [a, a] ++ r = t ++ ([a, a] ++ r) := by simp
    rw [hsh, find2_append_left ht ([a, a] ++ r)]
    have hpair : [a, a] ++ r = a :: a :: r := by simp
    rw [hpair, find2_pair]
    simp
  rw [sub2_eq_some_some o c e1 e2]

theorem atsL_wrap_bold {p t : List Char}
    (hp1 : '*' ∉ p) (hp2 : '_' ∉ p) (ht1 : '*' ∉ t) (ht2 : '_' ∉ t)
    (r : List Char) :
    atsL (p ++ ['*', '*'] ++ t ++ ['*', '*'] ++ r) =
      p ++ "<b>".toList ++ t ++ "</b>".toList ++ atsL r := by
  rw [atsL, sub2_wrap _ _ hp1 ht1 r]
  have hx : '_' ∉ p ++ "<b>".toList ++ t ++ "</b>".toList := by
    simp only [List.mem_append]
    push_neg
    refine ⟨⟨⟨hp2, by decide⟩, ht2⟩, by decide⟩
  have hassoc :
      p ++ "<b>".toList ++ t ++ "</b>".toList ++ sub2 '*' "<b>".toList "</b>".toList r =
        (p ++ "<b>".toList ++ t ++ "</b>".toList) ++ sub2 '*' "<b>".toList "</b>".toList r := by
    simp
  rw [hassoc, sub2_append_left _ _ hx, atsL]

theorem atsL_wrap_em {p t : List Char}
    (hp1 : '*' ∉ p) (hp2 : '_' ∉ p) (ht1 : '*' ∉ t) (ht2 : '_' ∉ t)
    (r : List Char) :
    atsL (p ++ ['_', '_'] ++ t ++ ['_', '_'] ++ r) =
      p ++ "<em>".toList ++ t ++ "</em>".toList ++ atsL r := by
  rw [atsL]
  have hx : '*' ∉ p ++ ['_', '_'] ++ t ++ ['_', '_'] := by
    simp only [List.mem_append]
    push_neg
    refine ⟨⟨⟨hp1, by decide⟩, ht1⟩, by decide⟩
  have hassoc :
      p ++ ['_', '_'] ++ t ++ ['_', '_'] ++ r =
        (p ++ ['_', '_'] ++ t ++ ['_', '_']) ++ r := by
    simp
  rw [hassoc, sub2_append_left _ _ hx]
  have hback :
      (p ++ ['_', '_'] ++ t ++ ['_', '_']) ++ sub2 '*' "<b>".toList "</b>".toList r =
        p ++ ['_', '_'] ++ t ++ ['_', '_'] ++ sub2 '*' "<b>".toList "</b>".toList r := by
    simp
  rw [hback, sub2_wrap _ _ hp2 ht2]
  rw [atsL]

theorem atsL_nomatch {s : List Char}
    (h1 : noDelimMatch '*' s) (h2 : noDelimMatch '_' s) : atsL s = s := by
  rw [atsL, sub2_nomatch _ _ h1, sub2_nomatch _ _ h2]

theorem toPlain_close_paragraph (st : EState) :
    close_paragraph (toPlain st) = toPlain (close_paragraphE st) := by
  simp only [close_paragraph, close_paragraphE, toPlain]
  split
  · rfl
  · simp [renderE]

theorem toPlain_headingBranch (st : EState) (line : List Char) :
    headingBranch (toPlain st) line = toPlain (headingBranchE st line) := by
  simp only [headingBranch, headingBranchE, toPlain_close_paragraph]
  generalize close_paragraphE st = st1
  simp only [toPlain]
  split <;> split <;> simp [renderE]

theorem toPlain_ulBranch (st : EState) (line : List Char) :
    ulBranch (toPlain st) line = toPlain (ulBranchE st line) := by
  simp only [ulBranch, ulBranchE, toPlain_close_paragraph]
  generalize close_paragraphE st = st1
  simp only [toPlain]
  split <;> simp [renderE]

theorem toPlain_olBranch (st : EState) (line : List Char) :
    olBranch (toPlain st) line = toPlain (olBranchE st line) := by
  simp only [olBranch, olBranchE, toPlain_close_paragraph]
  generalize close_paragraphE st = st1
  simp only [toPlain]
  split <;> simp [renderE]

theorem toPlain_otherBranch (st : EState) (line : List Char) :
    otherBranch (toPlain st) line = toPlain (otherBranchE st line) := by
  by_cases hu : st.in_unordered_list <;> by_cases ho : st.in_ordered_list <;>
    by_cases he : line.isEmpty <;> by_cases hp : st.paragraph_lines.isEmpty <;>
      simp [otherBranch, otherBranchE, toPlain, close_paragraph, close_paragraphE,
        renderE, hu, ho, he, hp]

theorem toPlain_processLine (st : EState) (raw : String) :
    processLine (toPlain st) raw = toPlain (processLineE st raw) := by
  simp only [processLine, processLineE]
  split
  · exact toPlain_headingBranch st _
  · split
    · exact toPlain_ulBranch st _
    · split
      · exact toPlain_olBranch st _
      · exact toPlain_otherBranch st _

theorem toPlain_foldl (lines : List String) :
    ∀ st : EState, lines.foldl processLine (toPlain st) = toPlain (lines.foldl processLineE st) := by
  induction lines with
  | nil => intro st; rfl
  | cons l rest ih =>
    intro st
    simp only [List.foldl_cons, toPlain_processLine, ih]

theorem toPlain_finishState (st : EState) :
    finishState (toPlain st) = toPlain (finishStateE st) := by
  by_cases hu : st.in_unordered_list <;> by_cases ho : st.in_ordered_list <;>
    by_cases hp : st.paragraph_lines.isEmpty <;>
      simp [finishState, finishStateE, toPlain, close_paragraph, close_paragraphE,
        renderE, hu, ho, hp]

theorem parse_markdown_emitTrace (s : String) :
    parse_markdown s = String.intercalate "\n" ((emitTrace s).map renderE) := by
  rw [parse_markdown, parse_document_lines, emitTrace]
  have h0 : initState = toPlain initStateE := rfl
  rw [h0, toPlain_foldl, toPlain_finishState]
  rfl

theorem countEmit_append (e : Emit) (l1 l2 : List Emit) :
    countEmit e (l1 ++ l2) = countEmit e l1 + countEmit e l2 := by
  simp [countEmit, List.countP_append]

theorem countEmit_text_zero (t X : String) :
    countEmit (Emit.tag t) [Emit.text X] = 0 := rfl

theorem countEmit_pb_ulo (X : String) :
    countEmit (Emit.tag "<ul>") [Emit.tag "<p>", Emit.text X, Emit.tag "</p>"] = 0 := rfl

theorem countEmit_ulo_ulo :
    countEmit (Emit.tag "<ul>") [Emit.tag "<ul>"] = 1 := rfl

theorem countEmit_ulo_ulc :
    countEmit (Emit.tag "<ul>") [Emit.tag "</ul>"] = 0 := rfl

theorem countEmit_ulo_olo :
    countEmit (Emit.tag "<ul>") [Emit.tag "<ol>"] = 0 := rfl

theorem countEmit_ulo_olc :
    countEmit (Emit.tag "<ul>") [Emit.tag "</ol>"] = 0 := rfl

theorem countEmit_pb_ulc (X : String) :
    countEmit (Emit.tag "</ul>") [Emit.tag "<p>", Emit.text X, Emit.tag "</p>"] = 0 := rfl

theorem countEmit_ulc_ulo :
    countEmit (Emit.tag "</ul>") [Emit.tag "<ul>"] = 0 := rfl

theorem countEmit_ulc_ulc :
    countEmit (Emit.tag "</ul>") [Emit.tag "</ul>"] = 1 := rfl

theorem countEmit_ulc_olo :
    countEmit (Emit.tag "</ul>") [Emit.tag "<ol>"] = 0 := rfl

theorem countEmit_ulc_olc :
    countEmit (Emit.tag "</ul>") [Emit.tag "</ol>"] = 0 := rfl

theorem countEmit_pb_olo (X : String) :
    countEmit (Emit.tag "<ol>") [Emit.tag "<p>", Emit.text X, Emit.tag "</p>"] = 0 := rfl

theorem countEmit_olo_ulo :
    countEmit (Emit.tag "<ol>") [Emit.tag "<ul>"] = 0 := rfl

theorem countEmit_olo_ulc :
    countEmit (Emit.tag "<ol>") [Emit.tag "</ul>"] = 0 := rfl

theorem countEmit_olo_olo :
    countEmit (Emit.tag "<ol>") [Emit.tag "<ol>"] = 1 := rfl

theorem countEmit_olo_olc :
    countEmit (Emit.tag "<ol>") [Emit.tag "</ol>"] = 0 := rfl

theorem countEmit_pb_olc (X : String) :
    countEmit (Emit.tag "</ol>") [Emit.tag "<p>", Emit.text X, Emit.tag "</p>"] = 0 := rfl

theorem countEmit_olc_ulo :
    countEmit (Emit.tag "</ol>") [Emit.tag "<ul>"] = 0 := rfl

theorem countEmit_olc_ulc :
    countEmit (Emit.tag "</ol>") [Emit.tag "</ul>"] = 0 := rfl

theorem countEmit_olc_olo :
    countEmit (Emit.tag "</ol>") [Emit.tag "<ol>"] = 0 := rfl

theorem countEmit_olc_olc :
    countEmit (Emit.tag "</ol>") [Emit.tag "</ol>"] = 1 := rfl


theorem countEmit_nil (e : Emit) : countEmit e [] = 0 := rfl

theorem countEmit_cons (e x : Emit) (l : List Emit) :
    countEmit e (x :: l) = countEmit e l + (if x == e then 1 else 0) := by
  simp [countEmit, List.countP_cons]

theorem beq_tag_tag (a b : String) : (Emit.tag a == Emit.tag b) = (a == b) := by
  cases h : a == b
  · have hne : ¬ a = b := by
      intro he
      rw [he] at h
      simp at h
    simp [hne]
  · have he : a = b := eq_of_beq h
    simp [he]

theorem beq_text_tag (X t : String) : (Emit.text X == Emit.tag t) = false := rfl

theorem close_paragraphE_bal (st : EState) (h1 : ulBalanced st) (h2 : olBalanced st) :
    ulBalanced (close_paragraphE st) ∧ olBalanced (close_paragraphE st) := by
  simp only [ulBalanced, olBalanced, close_paragraphE] at h1 h2 ⊢
  split
  · exact ⟨h1, h2⟩
  · refine ⟨?_, ?_⟩ <;>
      simp [countEmit_append, countEmit_nil, countEmit_cons, beq_tag_tag, beq_text_tag, countEmit_pb_ulo, countEmit_pb_ulc,
        countEmit_pb_olo, countEmit_pb_olc] <;> omega

theorem headingBranchE_bal (st : EState) (line : List Char)
    (h1 : ulBalanced st) (h2 : olBalanced st) :
    ulBalanced (headingBranchE st line) ∧ olBalanced (headingBranchE st line) := by
  obtain ⟨g1, g2⟩ := close_paragraphE_bal st h1 h2
  simp only [headingBranchE]
  generalize hst : close_paragraphE st = st1 at g1 g2 ⊢
  simp only [ulBalanced, olBalanced] at g1 g2
  cases hu : st1.in_unordered_list <;> cases ho : st1.in_ordered_list <;>
    simp only [hu, ho] at g1 g2 ⊢ <;>
      simp at g1 g2 <;>
        constructor <;>
          simp [ulBalanced, olBalanced, countEmit_append, countEmit_cons, countEmit_nil,
            beq_tag_tag, beq_text_tag, hu, ho] <;>
            omega

theorem ulBranchE_bal (st : EState) (line : List Char)
    (h1 : ulBalanced st) (h2 : olBalanced st) :
    ulBalanced (ulBranchE st line) ∧ olBalanced (ulBranchE st line) := by
  obtain ⟨g1, g2⟩ := close_paragraphE_bal st h1 h2
  simp only [ulBranchE]
  generalize hst : close_paragraphE st = st1 at g1 g2 ⊢
  simp only [ulBalanced, olBalanced] at g1 g2
  cases hu : st1.in_unordered_list <;>
    simp only [hu] at g1 ⊢ <;>
      simp at g1 g2 <;>
        constructor <;>
          simp [ulBalanced, olBalanced, countEmit_append, countEmit_cons, countEmit_nil,
            beq_tag_tag, beq_text_tag, hu] <;>
            omega

theorem olBranchE_bal (st : EState) (line : List Char)
    (h1 : ulBalanced st) (h2 : olBalanced st) :
    ulBalanced (olBranchE st line) ∧ olBalanced (olBranchE st line) := by
  obtain ⟨g1, g2⟩ := close_paragraphE_bal st h1 h2
  simp only [olBranchE]
  generalize hst : close_paragraphE st = st1 at g1 g2 ⊢
  simp only [ulBalanced, olBalanced] at g1 g2
  cases ho : st1.in_ordered_list <;>
    simp only [ho] at g2 ⊢ <;>
      simp at g1 g2 <;>
        constructor <;>
          simp [ulBalanced, olBalanced, countEmit_append, countEmit_cons, countEmit_nil,
            beq_tag_tag, beq_text_tag, ho] <;>
            omega

theorem otherBranchE_bal (st : EState) (line : List Char)
    (h1 : ulBalanced st) (h2 : olBalanced st) :
    ulBalanced (otherBranchE st line) ∧ olBalanced (otherBranchE st line) := by
  simp only [otherBranchE]
  simp only [ulBalanced, olBalanced] at h1 h2
  have hmid : ∀ st2 : EState, ulBalanced st2 → olBalanced st2 →
      ulBalanced (if line.isEmpty then close_paragraphE st2
        else { st2 with paragraph_lines := st2.paragraph_lines ++ [String.mk line] }) ∧
      olBalanced (if line.isEmpty then close_paragraphE st2
        else { st2 with paragraph_lines := st2.paragraph_lines ++ [String.mk line] }) := by
    intro st2 g1 g2
    by_cases he : line.isEmpty
    · simp only [he, if_true]
      exact close_paragraphE_bal st2 g1 g2
    · simp only [he, if_false]
      simp only [ulBalanced, olBalanced] at g1 g2 ⊢
      exact ⟨g1, g2⟩
  apply hmid <;>
    cases hu : st.in_unordered_list <;> cases ho : st.in_ordered_list <;>
      simp only [hu, ho] at h1 h2 ⊢ <;>
        simp at h1 h2 <;>
          simp [ulBalanced, olBalanced, countEmit_append, countEmit_cons, countEmit_nil,
            beq_tag_tag, beq_text_tag, hu, ho] <;>
            omega

theorem processLineE_bal (st : EState) (raw : String)
    (h1 : ulBalanced st) (h2 : olBalanced st) :
    ulBalanced (processLineE st raw) ∧ olBalanced (processLineE st raw) := by
  simp only [processLineE]
  split
  · exact headingBranchE_bal st _ h1 h2
  · split
    · exact ulBranchE_bal st _ h1 h2
    · split
      · exact olBranchE_bal st _ h1 h2
      · exact otherBranchE_bal st _ h1 h2

theorem foldlE_bal (lines : List String) :
    ∀ st : EState, ulBalanced st → olBalanced st →
      ulBalanced (lines.foldl processLineE st) ∧ olBalanced (lines.foldl processLineE st) := by
  induction lines with
  | nil => intro st h1 h2; exact ⟨h1, h2⟩
  | cons l rest ih =>
    intro st h1 h2
    obtain ⟨g1, g2⟩ := processLineE_bal st l h1 h2
    exact ih _ g1 g2

theorem finishStateE_counts (st : EState) (h1 : ulBalanced st) (h2 : olBalanced st) :
    countEmit (Emit.tag "<ul>") (finishStateE st).items =
      countEmit (Emit.tag "</ul>") (finishStateE st).items ∧
    countEmit (Emit.tag "<ol>") (finishStateE st).items =
      countEmit (Emit.tag "</ol>") (finishStateE st).items := by
  obtain ⟨g1, g2⟩ := close_paragraphE_bal st h1 h2
  simp only [finishStateE]
  generalize hst : close_paragraphE st = st1 at g1 g2 ⊢
  simp only [ulBalanced, olBalanced] at g1 g2
  cases hu : st1.in_unordered_list <;> cases ho : st1.in_ordered_list <;>
    simp only [hu, ho] at g1 g2 ⊢ <;>
      simp at g1 g2 <;>
        constructor <;>
          simp [countEmit_append, countEmit_cons, countEmit_nil,
            beq_tag_tag, beq_text_tag, hu, ho] <;>
            omega

theorem emitTrace_balanced (s : String) :
    countEmit (Emit.tag "<ul>") (emitTrace s) = countEmit (Emit.tag "</ul>") (emitTrace s) ∧
    countEmit (Emit.tag "<ol>") (emitTrace s) = countEmit (Emit.tag "</ol>") (emitTrace s) := by
  rw [emitTrace]
  have hinit1 : ulBalanced initStateE := by simp [ulBalanced, initStateE, countEmit]
  have hinit2 : olBalanced initStateE := by simp [olBalanced, initStateE, countEmit]
  obtain ⟨g1, g2⟩ := foldlE_bal (pySplitlines s) initStateE hinit1 hinit2
  exact finishStateE_counts _ g1 g2

theorem plainLine_processLine (st : PState) (raw : String)
    (hp : plainLine raw = true)
    (hu : st.in_unordered_list = false) (ho : st.in_ordered_list = false) :
    processLine st raw =
      { st with paragraph_lines := st.paragraph_lines ++ [String.mk (normL raw.toList)] } := by
  simp only [plainLine, Bool.and_eq_true, Bool.not_eq_true'] at hp
  obtain ⟨⟨⟨hne, h1⟩, h2⟩, h3⟩ := hp
  rw [processLine_other_eq st raw h1 h2 h3]
  simp only [otherBranch]
  have hne3 : ¬ normL raw.data = [] := by simpa using hne
  simp [hu, ho, hne3]

theorem para_accum (lines : List String) :
    ∀ st : PState, (∀ l ∈ lines, plainLine l = true) →
      st.in_unordered_list = false → st.in_ordered_list = false →
      lines.foldl processLine st =
        { st with paragraph_lines :=
            st.paragraph_lines ++ lines.map (fun r => String.mk (normL r.toList)) } := by
  induction lines with
  | nil => intro st hp hu ho; simp
  | cons l rest ih =>
    intro st hp hu ho
    have hl : plainLine l = true := hp l (List.mem_cons_self l rest)
    have hrest : ∀ x ∈ rest, plainLine x = true := fun x hx => hp x (List.mem_cons_of_mem l hx)
    rw [List.foldl_cons, plainLine_processLine st l hl hu ho]
    rw [ih _ hrest (by simp [hu]) (by simp [ho])]
    simp

theorem parse_plain_lines (lines : List String) (hne : lines ≠ [])
    (hp : ∀ l ∈ lines, plainLine l = true) :
    parse_document_lines lines =
      "<p>\n" ++
        String.intercalate "<br/>" (lines.map (fun r => String.mk (normL r.toList))) ++
        "\n</p>" := by
  rw [parse_document_lines]
  rw [para_accum lines initState hp rfl rfl]
  have hmapne : lines.map (fun r => String.mk (normL r.toList)) ≠ [] := by
    simp [hne]
  have hfin :
      finishState { initState with paragraph_lines :=
          initState.paragraph_lines ++ lines.map (fun r => String.mk (normL r.toList)) } =
        { html_lines :=
            ["<p>", String.intercalate "<br/>" (lines.map (fun r => String.mk (normL r.toList))),
             "</p>"],
          in_unordered_list := false, in_ordered_list := false, paragraph_lines := [] } := by
    simp only [finishState, close_paragraph, initState]
    simp [hne, hmapne]
  rw [hfin]
  simp only []
  simp [String.intercalate, String.intercalate.go]
  rw [String.append_assoc]
  rfl

theorem headingBranchChk_eq (st : PState) (line : List Char) :
    headingBranchChk st line = some (headingBranch st line) := by
  simp only [headingBranchChk]
  rw [head?_pySplitSpace]
  simp only [headingBranch, headingHtml, headD_pySplitSpace]

theorem processLineChk_eq (st : PState) (raw : String) :
    processLineChk st raw = some (processLine st raw) := by
  simp only [processLineChk, processLine]
  split
  · exact headingBranchChk_eq st _
  · split
    · rfl
    · split
      · rfl
      · rfl

theorem foldlM_processLineChk (lines : List String) :
    ∀ st : PState, lines.foldlM processLineChk st = some (lines.foldl processLine st) := by
  induction lines with
  | nil => intro st; rfl
  | cons l rest ih =>
    intro st
    rw [List.foldlM_cons, processLineChk_eq]
    simp only [Option.bind_eq_bind, Option.some_bind]
    rw [List.foldl_cons]
    exact ih (processLine st l)

theorem ulBranch_spec (st : PState) (line : List Char) :
    (ulBranch st line).in_ordered_list = st.in_ordered_list ∧
    (ulBranch st line).in_unordered_list = true ∧
    (ulBranch st line).html_lines =
      (close_paragraph st).html_lines ++
        (if st.in_unordered_list then [] else ["<ul>"]) ++ [listItemHtml line] := by
  simp only [ulBranch, close_paragraph_ul]
  cases hu : st.in_unordered_list <;>
    simp [hu, close_paragraph_ol, close_paragraph_ul]

theorem olBranch_spec (st : PState) (line : List Char) :
    (olBranch st line).in_unordered_list = st.in_unordered_list ∧
    (olBranch st line).in_ordered_list = true ∧
    (olBranch st line).html_lines =
      (close_paragraph st).html_lines ++
        (if st.in_ordered_list then [] else ["<ol>"]) ++ [listItemHtml line] := by
  simp only [olBranch, close_paragraph_ol]
  cases ho : st.in_ordered_list <;>
    simp [ho, close_paragraph_ol, close_paragraph_ul]

theorem headingBranch_emits (st : PState) (line : List Char) :
    ∃ q, (headingBranch st line).html_lines = q ++ [headingHtml line] := by
  simp only [headingBranch]
  exact ⟨_, rfl⟩

theorem headingHtml_tok (line : List Char) :
    headingHtml line =
      "<h" ++ toString (firstTok line).length ++ ">" ++
        String.mk (pyStripL (line.drop (firstTok line).length)) ++
        "</h" ++ toString (firstTok line).length ++ ">" := by
  simp only [headingHtml, headD_pySplitSpace]

theorem headingHtml_allHash (line : List Char)
    (h : (firstTok line).all (fun c => c == '#') = true) :
    headingHtml line =
      "<h" ++ toString (leadingHashes line) ++ ">" ++
        String.mk (pyStripL (line.drop (leadingHashes line))) ++
        "</h" ++ toString (leadingHashes line) ++ ">" := by
  have hlen : leadingHashes line = (firstTok line).length := by
    rw [leadingHashes, takeWhile_hash_of_allHash h]
  rw [headingHtml_tok, hlen]

theorem intercalate_two (x y : String) :
    String.intercalate "<br/>" [x, y] = x ++ "<br/>" ++ y := by
  simp [String.intercalate, String.intercalate.go]

/-!
Claim theorems.
-/

/-- C1, corrected: the claim says an unordered item closes an open ordered
list before opening its own (and symmetrically), so the two list kinds are
never open at once.  The code does not consult the other flag: a dash line
leaves in_ordered_list untouched and emits no closing ol tag, so both
kinds can be open simultaneously.  This theorem states the actual
behaviour: processing a dash line preserves the ordered-list flag, sets
the unordered-list flag, and emits only an optional ul opening tag and the
item; moreover a state with both flags set is reachable. -/
theorem C1_dash_keeps_ordered_open :
    (∀ (st : PState) (raw : String), startsCh (normL raw.toList) '-' = true →
      (processLine st raw).in_ordered_list = st.in_ordered_list ∧
      (processLine st raw).in_unordered_list = true ∧
      (processLine st raw).html_lines =
        (close_paragraph st).html_lines ++
          (if st.in_unordered_list then [] else ["<ul>"]) ++
          [listItemHtml (normL raw.toList)]) ∧
    (parse_state "* a\n- b").in_unordered_list = true ∧
    (parse_state "* a\n- b").in_ordered_list = true := by
  refine ⟨?_, by decide, by decide⟩
  intro st raw h
  rw [processLine_ul_eq st raw h]
  exact ulBranch_spec st (normL raw.toList)

/-- C1 counterexample: on the document with an ordered item followed by an
unordered item the parser emits the ul block strictly inside the ol block
with no closing ol tag in between, and after the second line both list
flags are set at once. -/
theorem C1_counterexample :
    parse_markdown "* a\n- b" = "<ol>\n<li>a</li>\n<ul>\n<li>b</li>\n</ul>\n</ol>" ∧
    (parse_state "* a\n- b").in_unordered_list = true ∧
    (parse_state "* a\n- b").in_ordered_list = true := by
  refine ⟨by decide, by decide, by decide⟩

/-- C1 witness: the dash-line description instantiated on the initial
state and a concrete item line. -/
theorem C1_witness :
    (processLine initState "- x").in_ordered_list = initState.in_ordered_list ∧
    (processLine initState "- x").in_unordered_list = true ∧
    (processLine initState "- x").html_lines =
      (close_paragraph initState).html_lines ++
        (if initState.in_unordered_list then [] else ["<ul>"]) ++
        [listItemHtml (normL "- x".toList)] :=
  C1_dash_keeps_ordered_open.1 initState "- x" (by decide)

/-- C2, corrected: the claim says the emitted heading level equals the
number of leading hash characters of the stripped line, for every line
classified as a heading.  The code uses the length of the entire first
space-delimited token, which coincides with the leading-hash count only
when that token consists of hash characters alone; the line "#Hello" is
classified as a heading yet emits level 6 although it has one leading
hash.  Amended statement: for every heading line whose first token is all
hashes, the emitted level equals the leading-hash count (with the claim's
two examples). -/
theorem C2_heading_level_all_hash :
    (∀ (st : PState) (raw : String),
      startsCh (normL raw.toList) '#' = true →
      (firstTok (normL raw.toList)).all (fun c => c == '#') = true →
      ∃ q, (processLine st raw).html_lines =
        q ++ ["<h" ++ toString (leadingHashes (normL raw.toList)) ++ ">" ++
          String.mk (pyStripL ((normL raw.toList).drop (leadingHashes (normL raw.toList)))) ++
          "</h" ++ toString (leadingHashes (normL raw.toList)) ++ ">"]) ∧
    parse_markdown "# A" = "<h1>A</h1>" ∧
    parse_markdown "### A" = "<h3>A</h3>" := by
  refine ⟨?_, by decide, by decide⟩
  intro st raw h hall
  rw [processLine_heading_eq st raw h]
  obtain ⟨q, hq⟩ := headingBranch_emits st (normL raw.toList)
  refine ⟨q, ?_⟩
  rw [hq, headingHtml_allHash _ hall]

/-- C2 counterexample: the stripped line "#Hello" has exactly one leading
hash, yet the transform emits a level-6 heading with empty content. -/
theorem C2_counterexample :
    parse_markdown "#Hello" = "<h6></h6>" ∧
    leadingHashes (pyStripL "#Hello".toList) = 1 := by
  refine ⟨by decide, by decide⟩

/-- C2 witness: the all-hash heading description instantiated on the
initial state and the line "# A". -/
theorem C2_witness :
    ∃ q, (processLine initState "# A").html_lines =
      q ++ ["<h" ++ toString (leadingHashes (normL "# A".toList)) ++ ">" ++
        String.mk (pyStripL ((normL "# A".toList).drop (leadingHashes (normL "# A".toList)))) ++
        "</h" ++ toString (leadingHashes (normL "# A".toList)) ++ ">"] :=
  C2_heading_level_all_hash.1 initState "# A" (by decide) (by decide)

/-- C3, corrected: literally counted over the output text the claim fails,
because unsanitized content lines can contain tag-shaped text (see the
counterexample).  The intended structural invariant does hold: in the
parser's labelled emission trace, whose label-erasure is exactly the
transform's output, the structural ul open and close tags are emitted in
equal numbers, and likewise for ol, for every input document. -/
theorem C3_structural_tag_balance (s : String) :
    parse_markdown s = String.intercalate "\n" ((emitTrace s).map renderE) ∧
    countEmit (Emit.tag "<ul>") (emitTrace s) = countEmit (Emit.tag "</ul>") (emitTrace s) ∧
    countEmit (Emit.tag "<ol>") (emitTrace s) = countEmit (Emit.tag "</ol>") (emitTrace s) := by
  obtain ⟨h1, h2⟩ := emitTrace_balanced s
  exact ⟨parse_markdown_emitTrace s, h1, h2⟩

/-- C3 counterexample: the one-line document "<ul>" is plain paragraph
content, so the output text contains one occurrence of the ul opening tag
and none of the closing tag. -/
theorem C3_counterexample :
    parse_markdown "<ul>" = "<p>\n<ul>\n</p>" ∧
    countOccS "<ul>" (parse_markdown "<ul>") = 1 ∧
    countOccS "</ul>" (parse_markdown "<ul>") = 0 := by
  refine ⟨by decide, by decide, by decide⟩

/-- C3 witness: the balance statement instantiated on a document that
opens and closes both list kinds. -/
theorem C3_witness :
    parse_markdown "- a\n* b" =
      String.intercalate "\n" ((emitTrace "- a\n* b").map renderE) ∧
    countEmit (Emit.tag "<ul>") (emitTrace "- a\n* b") =
      countEmit (Emit.tag "</ul>") (emitTrace "- a\n* b") ∧
    countEmit (Emit.tag "<ol>") (emitTrace "- a\n* b") =
      countEmit (Emit.tag "</ol>") (emitTrace "- a\n* b") :=
  C3_structural_tag_balance "- a\n* b"

/-- C4, confirmed: the only loop operation that could raise at runtime is
the indexing of line.split(' ')[0] in the heading branch; the checked
parser models it with Option, and for every input string it succeeds and
returns exactly the transform's output, so parse_markdown is total and
raises no error. -/
theorem C4_total (s : String) :
    parse_markdown_chk s = some (parse_markdown s) := by
  rw [parse_markdown_chk, foldlM_processLineChk]
  rfl

/-- C4 witness: totality instantiated on the empty document. -/
theorem C4_witness : parse_markdown_chk "" = some (parse_markdown "") :=
  C4_total ""

/-- C5, corrected: the claim quantifies over every line whose first
non-whitespace character is an asterisk, but the inline styling pass runs
before classification, so a line such as "**a**" is rewritten to a bold
tag and becomes a paragraph, not a list item (see the counterexample).
Amended statement: every line that still starts with an asterisk after
stripping and styling is emitted as an ordered list item, with the ol tag
opened first when no ordered list is open. -/
theorem C5_star_is_ordered_item :
    ∀ (st : PState) (raw : String), startsCh (normL raw.toList) '*' = true →
      (processLine st raw).in_ordered_list = true ∧
      (processLine st raw).in_unordered_list = st.in_unordered_list ∧
      (processLine st raw).html_lines =
        (close_paragraph st).html_lines ++
          (if st.in_ordered_list then [] else ["<ol>"]) ++
          ["<li>" ++ String.mk (pyStripL ((normL raw.toList).drop 1)) ++ "</li>"] := by
  intro st raw h
  rw [processLine_ol_eq st raw h]
  obtain ⟨h1, h2, h3⟩ := olBranch_spec st (normL raw.toList)
  exact ⟨h2, h1, h3⟩

/-- C5 counterexample: the line "**a**" begins with an asterisk, yet the
transform emits a paragraph with a bold element and never opens an
ordered list. -/
theorem C5_counterexample :
    parse_markdown "**a**" = "<p>\n<b>a</b>\n</p>" ∧
    startsCh (pyStripL "**a**".toList) '*' = true ∧
    (parse_state "**a**").in_ordered_list = false := by
  refine ⟨by decide, by decide, by decide⟩

/-- C5 witness: the ordered-item description instantiated on a state that
is already inside an ordered list, where no second ol tag is emitted. -/
theorem C5_witness :
    (processLine (parse_state "* a") "* b").in_ordered_list = true ∧
    (processLine (parse_state "* a") "* b").in_unordered_list =
      (parse_state "* a").in_unordered_list ∧
    (processLine (parse_state "* a") "* b").html_lines =
      (close_paragraph (parse_state "* a")).html_lines ++
        (if (parse_state "* a").in_ordered_list then [] else ["<ol>"]) ++
        ["<li>" ++ String.mk (pyStripL ((normL "* b".toList).drop 1)) ++ "</li>"] :=
  C5_star_is_ordered_item (parse_state "* a") "* b" (by decide)

/-- C6, confirmed: the styling pass wraps each shortest doubled-asterisk
run in bold tags and each shortest doubled-underscore run in emphasis
tags; runs on one line are handled independently, since the rewrite of
one run leaves the remainder to be processed on its own; a string with no
complete delimiter pair anywhere is returned unchanged, so malformed or
unterminated delimiters stay literal; and the claim's example wraps the
two runs separately. -/
theorem C6_styles_non_greedy :
    (∀ p t r : List Char, '*' ∉ p → '_' ∉ p → '*' ∉ t → '_' ∉ t →
      atsL (p ++ ['*', '*'] ++ t ++ ['*', '*'] ++ r) =
        p ++ "<b>".toList ++ t ++ "</b>".toList ++ atsL r) ∧
    (∀ p t r : List Char, '*' ∉ p → '_' ∉ p → '*' ∉ t → '_' ∉ t →
      atsL (p ++ ['_', '_'] ++ t ++ ['_', '_'] ++ r) =
        p ++ "<em>".toList ++ t ++ "</em>".toList ++ atsL r) ∧
    (∀ s : List Char, noDelimMatch '*' s → noDelimMatch '_' s → atsL s = s) ∧
    apply_text_styles "**a** and **b**" = "<b>a</b> and <b>b</b>" ∧
    apply_text_styles "**a" = "**a" := by
  refine ⟨?_, ?_, ?_, by decide, by decide⟩
  · intro p t r hp1 hp2 ht1 ht2
    exact atsL_wrap_bold hp1 hp2 ht1 ht2 r
  · intro p t r hp1 hp2 ht1 ht2
    exact atsL_wrap_em hp1 hp2 ht1 ht2 r
  · intro s h1 h2
    exact atsL_nomatch h1 h2

/-- C6 witness: the three universal clauses instantiated on concrete
strings, each hypothesis discharged. -/
theorem C6_witness :
    atsL (['x'] ++ ['*', '*'] ++ ['a'] ++ ['*', '*'] ++ ['y']) =
      ['x'] ++ "<b>".toList ++ ['a'] ++ "</b>".toList ++ atsL ['y'] ∧
    atsL (['x'] ++ ['_', '_'] ++ ['a'] ++ ['_', '_'] ++ ['y']) =
      ['x'] ++ "<em>".toList ++ ['a'] ++ "</em>".toList ++ atsL ['y'] ∧
    atsL ['a', 'b'] = ['a', 'b'] := by
  refine ⟨?_, ?_, ?_⟩
  · exact C6_styles_non_greedy.1 ['x'] ['a'] ['y']
      (by decide) (by decide) (by decide) (by decide)
  · exact C6_styles_non_greedy.2.1 ['x'] ['a'] ['y']
      (by decide) (by decide) (by decide) (by decide)
  · refine C6_styles_non_greedy.2.2.1 ['a', 'b'] ?_ ?_ <;>
      · intro h
        obtain ⟨p, c, r, hh⟩ := h
        have hl := congrArg List.length hh
        simp at hl
        omega

/-- C7, confirmed: two consecutive plain lines accumulate into one
paragraph and are flushed at end of document joined by the line-break
marker; in particular the document "line1\nline2\n" produces exactly the
single paragraph block of the claim. -/
theorem C7_paragraph_merge :
    (∀ a b : String, plainLine a = true → plainLine b = true →
      parse_document_lines [a, b] =
        "<p>\n" ++ String.mk (normL a.toList) ++ "<br/>" ++
          String.mk (normL b.toList) ++ "\n</p>") ∧
    parse_markdown "line1\nline2\n" = "<p>\nline1<br/>line2\n</p>" := by
  refine ⟨?_, by decide⟩
  intro a b ha hb
  have h := parse_plain_lines [a, b] (by simp)
    (by
      intro l hl
      simp only [List.mem_cons, List.not_mem_nil, or_false] at hl
      rcases hl with h1 | h2
      · exact h1 ▸ ha
      · exact h2 ▸ hb)
  rw [h]
  simp only [List.map_cons, List.map_nil, intercalate_two]
  simp [String.append_assoc]

/-- C7 witness: the merge statement instantiated on two concrete plain
lines. -/
theorem C7_witness :
    parse_document_lines ["line1", "line2"] =
      "<p>\n" ++ String.mk (normL "line1".toList) ++ "<br/>" ++
        String.mk (normL "line2".toList) ++ "\n</p>" :=
  C7_paragraph_merge.1 "line1" "line2" (by decide) (by decide)

/-- C8, confirmed: a dash line processed while the unordered list is
already open emits only the item line and keeps the list open, so
consecutive dash lines share one ul wrapper; the claim's two documents
produce exactly the expected output, the second closing the list at end
of document. -/
theorem C8_shared_ul_wrapper :
    (∀ (st : PState) (raw : String), startsCh (normL raw.toList) '-' = true →
      st.in_unordered_list = true →
      (processLine st raw).html_lines =
        (close_paragraph st).html_lines ++ [listItemHtml (normL raw.toList)] ∧
      (processLine st raw).in_unordered_list = true) ∧
    parse_markdown "- a\n- b" = "<ul>\n<li>a</li>\n<li>b</li>\n</ul>" ∧
    parse_markdown "- a" = "<ul>\n<li>a</li>\n</ul>" := by
  refine ⟨?_, by decide, by decide⟩
  intro st raw h hu
  rw [processLine_ul_eq st raw h]
  obtain ⟨h1, h2, h3⟩ := ulBranch_spec st (normL raw.toList)
  rw [hu] at h3
  simp only [if_true] at h3
  refine ⟨?_, h2⟩
  simpa using h3

/-- C8 witness: the no-reopen statement instantiated on the state reached
after one item line. -/
theorem C8_witness :
    (processLine (parse_state "- a") "- b").html_lines =
      (close_paragraph (parse_state "- a")).html_lines ++
        [listItemHtml (normL "- b".toList)] ∧
    (processLine (parse_state "- a") "- b").in_unordered_list = true :=
  C8_shared_ul_wrapper.1 (parse_state "- a") "- b" (by decide) (by decide)

/-- C9, corrected: the claim's pass-through holds only for the simpler,
non-paragraph variants of the program; this code is paragraph-aware, so a
document of plain non-blank lines is not echoed line for line but merged
into a single paragraph block with the lines joined by the line-break
marker (the counterexample shows a single word being wrapped).  Amended
statement: for every document all of whose lines are plain after
stripping and styling, the output is one paragraph block containing the
normalised lines joined by the line-break marker. -/
theorem C9_plain_lines_single_paragraph :
    ∀ s : String, pySplitlines s ≠ [] →
      (∀ l ∈ pySplitlines s, plainLine l = true) →
      parse_markdown s =
        "<p>\n" ++
          String.intercalate "<br/>"
            ((pySplitlines s).map (fun r => String.mk (normL r.toList))) ++
          "\n</p>" := by
  intro s hne hp
  rw [parse_markdown]
  exact parse_plain_lines (pySplitlines s) hne hp

/-- C9 counterexample: a document whose single line starts with none of
the marker characters and is not blank is wrapped in a paragraph, not
passed through verbatim. -/
theorem C9_counterexample :
    parse_markdown "hello" = "<p>\nhello\n</p>" ∧
    parse_markdown "hello" ≠ "hello" := by
  refine ⟨by decide, by decide⟩

/-- C9 witness: the single-paragraph statement instantiated on a concrete
two-line document. -/
theorem C9_witness :
    parse_markdown "x\ny" =
      "<p>\n" ++
        String.intercalate "<br/>"
          ((pySplitlines "x\ny").map (fun r => String.mk (normL r.toList))) ++
        "\n</p>" :=
  C9_plain_lines_single_paragraph "x\ny" (by decide) (by decide)

/-- C10, confirmed: for every heading line the emitted level is the full
length of the first space-delimited token of the stripped styled line,
even when the token contains non-hash characters, and it is not capped:
"#Hello" yields an empty level-6 heading and seven hashes yield a
level-7 heading. -/
theorem C10_heading_level_token_length :
    (∀ (st : PState) (raw : String), startsCh (normL raw.toList) '#' = true →
      ∃ q, (processLine st raw).html_lines =
        q ++ ["<h" ++ toString (firstTok (normL raw.toList)).length ++ ">" ++
          String.mk (pyStripL ((normL raw.toList).drop
            (firstTok (normL raw.toList)).length)) ++
          "</h" ++ toString (firstTok (normL raw.toList)).length ++ ">"]) ∧
    parse_markdown "#Hello" = "<h6></h6>" ∧
    parse_markdown "####### seven" = "<h7>seven</h7>" := by
  refine ⟨?_, by decide, by decide⟩
  intro st raw h
  rw [processLine_heading_eq st raw h]
  obtain ⟨q, hq⟩ := headingBranch_emits st (normL raw.toList)
  refine ⟨q, ?_⟩
  rw [hq, headingHtml_tok]

/-- C10 witness: the token-length statement instantiated on the initial
state and the line "#Hello". -/
theorem C10_witness :
    ∃ q, (processLine initState "#Hello").html_lines =
      q ++ ["<h" ++ toString (firstTok (normL "#Hello".toList)).length ++ ">" ++
        String.mk (pyStripL ((normL "#Hello".toList).drop
          (firstTok (normL "#Hello".toList)).length)) ++
        "</h" ++ toString (firstTok (normL "#Hello".toList)).length ++ ">"] :=
  C10_heading_level_token_length.1 initState "#Hello" (by decide)
